import Mathlib

/-
Verification development for the video-collaboration platform's upload and
transcoding pipeline.  The definitions below are a shallow embedding of the
TypeScript source:

  * `VideoDoc` / `VideoStatus`       — src/models/video.ts (the Video schema)
  * `updateMultipartUploadParts`     — src/actions/video.ts
  * `updateVideo`                    — src/actions/video.ts
  * `getUserMembership`              — src/lib/user-membership.ts
  * `streamRoute`                    — src/app/api/videos/[id]/stream/route.ts
  * `generateHLSContent`             — src/lib/video-processor.ts
  * `completeRoute`                  — src/app/api/videos/multipart/complete/route.ts

External effects (S3, ffmpeg, database) are modelled by explicit state
passing: the MongoDB collection is a `List VideoDoc`, and the outcome of each
external call is an oracle field in an environment record.  Side effects that
matter for ordering properties are recorded in explicit event traces.
-/

namespace VCP

/-- Video lifecycle status, from the `status` enum of the Video schema in
src/models/video.ts: `uploading | processing | ready | error`. -/
inductive VideoStatus
  | uploading
  | processing
  | ready
  | error
deriving DecidableEq, Repr

/-- One acknowledged multipart chunk, `{ ETag, PartNumber }`, as stored in the
`chunkParts` array of the Video schema.  `PartNumber` is a JS number; the
route's truthiness check treats `0` as missing. -/
structure ChunkPart where
  ETag : String
  PartNumber : Nat
deriving DecidableEq, Repr

/-- A document of the `Video` collection (src/models/video.ts), restricted to
the fields the upload/transcode/playback pipeline reads or writes.  `id`
models the Mongo `_id`.  Optional schema fields are `Option`; `createdAt` and
`updatedAt` are the Mongoose timestamps (modelled as abstract clock values). -/
structure VideoDoc where
  id : String
  title : String
  description : Option String
  workspaceId : String
  uploadedById : String
  fileName : String
  fileSize : Nat
  uploadId : String
  s3Key : String
  videoKey : Option String
  hlsKey : Option String
  status : VideoStatus
  processingError : Option String
  uploadCompletedAt : Option Nat
  viewCount : Nat
  chunkParts : List ChunkPart
  createdAt : Nat
  updatedAt : Nat
deriving DecidableEq, Repr

/-- The Mongo query filter `{ _id: videoId, uploadId, uploadedById: userId }`
used by both `updateMultipartUploadParts` (src/actions/video.ts) and the
multipart-complete route.  Note it carries no `status` condition. -/
def matchesUpload (videoId uploadId userId : String) (v : VideoDoc) : Bool :=
  v.id == videoId && v.uploadId == uploadId && v.uploadedById == userId

/-- `Video.findByIdAndUpdate(videoId, f)`: apply `f` to every document whose
`_id` equals `videoId` (Mongo ids are unique, so at most one in practice). -/
def findByIdAndUpdate (db : List VideoDoc) (videoId : String)
    (f : VideoDoc → VideoDoc) : List VideoDoc :=
  db.map (fun v => if v.id == videoId then f v else v)

/-- Server action `updateMultipartUploadParts(videoId, uploadId, part)` from
src/actions/video.ts.  After the auth check it runs
`Video.findOne({_id, uploadId, uploadedById})` — with no status filter — and
on a hit performs a Mongo push update of `chunkParts`, i.e. it appends the
part record to the end of the `chunkParts` array. -/
def updateMultipartUploadParts (auth : Option String) (db : List VideoDoc)
    (videoId uploadId : String) (part : ChunkPart) :
    Except String (List VideoDoc) :=
  match auth with
  | none => .error "Unauthorized"
  | some userId =>
    match db.find? (matchesUpload videoId uploadId userId) with
    | none => .error "Video not found or unauthorized"
    | some _ =>
      .ok (findByIdAndUpdate db videoId
        (fun v => { v with chunkParts := v.chunkParts ++ [part] }))

/-- Server action `updateVideo(videoId, data)` from src/actions/video.ts,
restricted to the update it applies to the found document:
`{...(data.title && {title}), ...(data.description !== undefined && {description})}`.
An empty-string title is falsy in JS, so it is dropped from the update;
a provided description is applied even when empty.  Mongoose timestamps
refresh `updatedAt`. -/
def updateVideo (v : VideoDoc) (title description : Option String)
    (now : Nat) : VideoDoc :=
  let v1 := match title with
    | some t => if t = "" then v else { v with title := t }
    | none => v
  let v2 := match description with
    | some d => { v1 with description := some d }
    | none => v1
  { v2 with updatedAt := now }

/-- Result of the viewer tier lookup, from src/lib/user-membership.ts
(`MembershipStatus`): `{ isPaidMember, tier, expiresAt }`. -/
structure MembershipStatus where
  isPaidMember : Bool
  tier : String
  expiresAt : Option Int
deriving DecidableEq, Repr

/-- The membership object stored in the auth provider's private metadata
(`clerkUser.privateMetadata.membership`): `{ isPaid, tier, expiresAt }`,
every field possibly missing. -/
structure MembershipMeta where
  isPaid : Bool
  tier : Option String
  expiresAt : Option Int
deriving DecidableEq, Repr

/-- `getUserMembership(userId)` from src/lib/user-membership.ts.  The fetch of
the auth-provider user is modelled by its outcome `fetch` (an exception or
the metadata, itself possibly absent); `now` is the current time.  The
function builds `{ isPaidMember: Boolean(meta.isPaid), tier: meta.tier or
"free", expiresAt }`, downgrades to free when `now` is past `expiresAt`, and
the catch-all returns the free tier on any fetch error. -/
def getUserMembership (fetch : Except String (Option MembershipMeta))
    (now : Int) : MembershipStatus :=
  match fetch with
  | .error _ => ⟨false, "free", none⟩
  | .ok metaOpt =>
    let meta := metaOpt.getD ⟨false, none, none⟩
    let tier := match meta.tier with
      | none => "free"
      | some t => if t = "" then "free" else t
    let status : MembershipStatus := ⟨meta.isPaid, tier, meta.expiresAt⟩
    match meta.expiresAt with
    | some t => if now > t then ⟨false, "free", none⟩ else status
    | none => status

/-- The configured free-tier rendition ceiling: the stream route hands a
non-paid member `allowedQuality: "720p"`. -/
def freeTierCeiling : String := "720p"

/-- Response body of `GET /api/videos/[id]/stream`
(src/app/api/videos/[id]/stream/route.ts). -/
structure StreamResponse where
  status : Nat
  url : Option String
  isHLS : Option Bool
  allowedQuality : Option String
  errorMsg : Option String
deriving DecidableEq, Repr

/-- The stream route `GET /api/videos/[id]/stream`.  It requires auth, looks
up `Video.findOne({_id: videoId, status: "ready"})`, bumps the view count,
fetches the viewer's membership, and answers: for an HLS video a signed URL
for `hlsKey ++ "/master.m3u8"` with `allowedQuality` equal to `"1080p"` for a
paid member and `"720p"` otherwise; for a non-HLS video a signed direct URL
with no quality field; 404 when nothing is playable.  `signedUrl` stands for
the presigner. -/
def streamRoute (auth : Option String) (db : List VideoDoc) (videoId : String)
    (membership : MembershipStatus) (signedUrl : String → String) :
    StreamResponse × List VideoDoc :=
  match auth with
  | none => (⟨401, none, none, none, some "Unauthorized"⟩, db)
  | some _ =>
    match db.find? (fun v => v.id == videoId && decide (v.status = .ready)) with
    | none => (⟨404, none, none, none, some "Video not found or not ready"⟩, db)
    | some video =>
      let db1 := findByIdAndUpdate db videoId
        (fun v => { v with viewCount := v.viewCount + 1 })
      match video.hlsKey with
      | some hlsKey =>
        let masterPlaylistKey := hlsKey ++ "/master.m3u8"
        (⟨200, some (signedUrl masterPlaylistKey), some true,
          some (if membership.isPaidMember then "1080p" else "720p"), none⟩, db1)
      | none =>
        match video.videoKey with
        | some vk =>
          (⟨200, some (signedUrl vk), some false, none, none⟩, db1)
        | none =>
          (⟨404, none, none, none, some "Video has no playable content"⟩, db1)

/-- One target rendition from the `resolutions` table of
src/lib/video-processor.ts: `{ name, width, height, bitrate }`. -/
structure Rendition where
  name : String
  width : Nat
  height : Nat
  bitrate : Nat
deriving DecidableEq, Repr

/-- The hard-coded rendition table of `generateHLSContent`:
720p at 2.8 Mbps, then 1080p at 5.0 Mbps. -/
def resolutions : List Rendition :=
  [⟨"720p", 1280, 720, 2800000⟩, ⟨"1080p", 1920, 1080, 5000000⟩]

/-- Durable side effects of the transcoder, in order of occurrence:
successful S3 uploads of a segment, of a per-rendition playlist, and of the
master playlist (with the rendition names it references, in the order they
appear in its body), plus the final scratch-directory cleanup attempt
(`ok` records whether the removal itself succeeded). -/
inductive TEvent
  | uploadSegment (renditionName segmentFile : String)
  | uploadPlaylist (renditionName : String)
  | uploadMaster (referenced : List String)
  | cleanup (ok : Bool)
deriving DecidableEq, Repr

/-- Oracle environment for `generateHLSContent`: the outcome of each external
call it makes (S3 download, file-system checks, one ffmpeg run per rendition,
the segment files ffmpeg leaves on disk, one S3 upload per key, and the
scratch-directory removal). -/
structure TranscodeEnv where
  bucketOk : Bool
  downloadOk : Bool
  fileExists : Bool
  fileSize : Nat
  ffmpegOk : String → Bool
  segments : String → List String
  uploadOk : String → Bool
  cleanupOk : Bool

/-- Sequential upload of one rendition's segment files (the inner `for` loop
of `generateHLSContent`): each segment is put to
`hlsBaseDir/resName/segment`; the first failed upload throws, so later
segments are not attempted.  Returns the successful upload events in order
and whether the whole loop completed. -/
def uploadSegmentLoop (env : TranscodeEnv) (hlsBaseDir resName : String) :
    List String → List TEvent × Bool
  | [] => ([], true)
  | s :: rest =>
    if env.uploadOk (hlsBaseDir ++ "/" ++ resName ++ "/" ++ s) then
      let (evs, ok) := uploadSegmentLoop env hlsBaseDir resName rest
      (TEvent.uploadSegment resName s :: evs, ok)
    else ([], false)

/-- One iteration of the `for (const res of resolutions)` loop: run ffmpeg
(reject aborts the whole transcode), upload every produced `.ts` segment,
then upload the per-rendition playlist.  The master-playlist line for this
rendition is appended only after all of that succeeded. -/
def processRendition (env : TranscodeEnv) (hlsBaseDir : String)
    (res : Rendition) : List TEvent × Bool :=
  if env.ffmpegOk res.name then
    let (evs, ok) := uploadSegmentLoop env hlsBaseDir res.name
      (env.segments res.name)
    if ok then
      if env.uploadOk (hlsBaseDir ++ "/" ++ res.name ++ "/playlist.m3u8") then
        (evs ++ [TEvent.uploadPlaylist res.name], true)
      else (evs, false)
    else (evs, false)
  else ([], false)

/-- The rendition loop of `generateHLSContent`: processes the renditions in
table order, accumulating the names referenced by the master playlist; the
first failure aborts the loop (the exception propagates out of the loop). -/
def processRenditions (env : TranscodeEnv) (hlsBaseDir : String) :
    List Rendition → List TEvent × List String × Bool
  | [] => ([], [], true)
  | r :: rest =>
    let (evs, ok) := processRendition env hlsBaseDir r
    if ok then
      let (evs2, names, ok2) := processRenditions env hlsBaseDir rest
      (evs ++ evs2, r.name :: names, ok2)
    else (evs, [], false)

/-- `generateHLSContent(videoId, videoKey)` from src/lib/video-processor.ts.
Validates its two required arguments and the bucket configuration,
materializes the source from S3 (failing on a missing or empty download),
runs the rendition loop, uploads the master playlist referencing the
completed renditions, then best-effort-removes the scratch directory inside
its own try/catch (a cleanup failure is logged and swallowed).  Returns the
event trace of durable effects together with the thrown error or the
returned `hlsBaseDir`.  `videoKey` is an `Option` because the JS caller may
omit the argument, in which case it is `undefined` (here `none`) and the
first validation throws. -/
def generateHLSContent (env : TranscodeEnv) (videoId : String)
    (videoKey : Option String) : List TEvent × Except String String :=
  if videoId = "" ∨ videoKey.getD "" = "" then
    ([], .error "Both videoId and videoKey are required")
  else if ¬ env.bucketOk then
    ([], .error "S3 bucket name is undefined. Check environment variables.")
  else if ¬ env.downloadOk then
    ([], .error "Failed to download video from S3")
  else if ¬ env.fileExists then
    ([], .error "Downloaded file does not exist")
  else if env.fileSize = 0 then
    ([], .error "Downloaded file is empty (0 bytes)")
  else
    let hlsBaseDir := "videos/" ++ videoId ++ "/hls"
    let (evs, names, ok) := processRenditions env hlsBaseDir resolutions
    if ok then
      if env.uploadOk (hlsBaseDir ++ "/master.m3u8") then
        (evs ++ [TEvent.uploadMaster names, TEvent.cleanup env.cleanupOk],
         .ok hlsBaseDir)
      else (evs, .error "master playlist upload failed")
    else (evs, .error "HLS generation failed")

/-- Stable insertion of a part into a list sorted ascending by `PartNumber`
(modelling the JS `parts.sort((a, b) => a.PartNumber - b.PartNumber)`). -/
def insertPart (p : ChunkPart) : List ChunkPart → List ChunkPart
  | [] => [p]
  | q :: rest =>
    if q.PartNumber ≤ p.PartNumber then q :: insertPart p rest
    else p :: q :: rest

/-- The route's in-place ascending sort of the caller-supplied parts. -/
def sortParts (l : List ChunkPart) : List ChunkPart :=
  l.foldr insertPart []

/-- Externally visible S3 operations performed by the multipart-complete
route, in order: the CompleteMultipartUpload attempt (with its outcome and
the sorted part list it sent), the CopyObject relocation attempt, and the
invocation of the transcoder with the exact arguments the route passes
(`generateHLSContent(finalKey)` — a single argument, so the second is
`none`). -/
inductive REvent
  | s3Complete (ok : Bool) (parts : List ChunkPart)
  | s3Copy (ok : Bool)
  | transcodeCall (videoId : String) (videoKey : Option String)
deriving DecidableEq, Repr

/-- Oracle environment for the multipart-complete route: outcome of the S3
CompleteMultipartUpload call, of the CopyObject relocation, and the
transcoder's environment. -/
structure CompleteEnv where
  s3CompleteOk : Bool
  copyOk : Bool
  tenv : TranscodeEnv

/-- JSON response of the multipart-complete route (status code, the success
flag of the happy path, and the error string otherwise). -/
structure ApiResponse where
  status : Nat
  success : Bool
  errorMsg : Option String
deriving DecidableEq, Repr

/-- `POST /api/videos/multipart/complete`
(src/app/api/videos/multipart/complete/route.ts).  After auth and input
validation it sorts the parts, looks the video up by
`{_id, uploadId, uploadedById}` (no status condition), unconditionally sets
`status: "processing"`, attempts the S3 CompleteMultipartUpload inside a
try/catch whose catch only logs and continues ("Attempting to continue
despite S3 error"), then copies the object to
`videos/{videoId}/{fileName}` and calls `generateHLSContent(finalKey)` with
one argument; a copy or transcode failure marks the video
`status: "error"` with `processingError` and answers 500, success marks it
`ready` with `videoKey`/`hlsKey` and answers 200.  Returns the response, the
resulting collection, and the trace of S3-facing operations. -/
def completeRoute (env : CompleteEnv) (now : Nat) (auth : Option String)
    (uploadId key videoId : String) (parts? : Option (List ChunkPart))
    (db : List VideoDoc) : ApiResponse × List VideoDoc × List REvent :=
  match auth with
  | none => (⟨401, false, some "Unauthorized"⟩, db, [])
  | some userId =>
    match parts? with
    | none => (⟨400, false, some "Missing required parameters"⟩, db, [])
    | some parts =>
      if uploadId = "" ∨ key = "" ∨ videoId = "" then
        (⟨400, false, some "Missing required parameters"⟩, db, [])
      else if parts = [] then
        (⟨400, false, some "No parts provided"⟩, db, [])
      else if ¬ (parts.all (fun p => p.ETag != "" && p.PartNumber != 0)) then
        (⟨400, false, some "Invalid parts data"⟩, db, [])
      else
        let sorted := sortParts parts
        match db.find? (matchesUpload videoId uploadId userId) with
        | none => (⟨404, false, some "Upload not found or unauthorized"⟩, db, [])
        | some video =>
          let db1 := findByIdAndUpdate db videoId
            (fun v => { v with status := .processing })
          let evs1 := [REvent.s3Complete env.s3CompleteOk sorted]
          let finalKey := "videos/" ++ video.id ++ "/" ++ video.fileName
          if env.copyOk then
            let evs2 := evs1 ++ [REvent.s3Copy true,
              REvent.transcodeCall finalKey none]
            match (generateHLSContent env.tenv finalKey none).2 with
            | .ok hls =>
              let db2 := findByIdAndUpdate db1 videoId
                (fun v =>
                  { v with
                    status := VideoStatus.ready
                    videoKey := some finalKey
                    hlsKey := some hls
                    uploadCompletedAt := some now })
              (⟨200, true, none⟩, db2, evs2)
            | .error _ =>
              let db2 := findByIdAndUpdate db1 videoId
                (fun v =>
                  { v with
                    status := VideoStatus.error
                    processingError := some "Failed to process video after upload" })
              (⟨500, false, some "Failed to process video after upload"⟩,
               db2, evs2)
          else
            let db2 := findByIdAndUpdate db1 videoId
              (fun v =>
                { v with
                  status := VideoStatus.error
                  processingError := some "Failed to process video after upload" })
            (⟨500, false, some "Failed to process video after upload"⟩,
             db2, evs1 ++ [REvent.s3Copy false])

/-- Concrete fixture: a freshly created upload session for a 12 MB file
(the document the upload-initiation route persists). -/
def baseVideo : VideoDoc :=
  { id := "v1", title := "Demo", description := none, workspaceId := "w1",
    uploadedById := "u1", fileName := "movie.mp4", fileSize := 12582912,
    uploadId := "up1", s3Key := "uploads/v1/movie.mp4", videoKey := none,
    hlsKey := none, status := .uploading, processingError := none,
    uploadCompletedAt := none, viewCount := 0, chunkParts := [],
    createdAt := 0, updatedAt := 0 }

/-- Concrete fixture: a session that already reached `ready`. -/
def readyVideo : VideoDoc :=
  { baseVideo with
    status := VideoStatus.ready
    videoKey := some "videos/v1/movie.mp4"
    hlsKey := some "videos/v1/hls" }

/-- Transcoder oracle in which every external call succeeds and ffmpeg
produces two segments per rendition. -/
def tenvAllOk : TranscodeEnv :=
  { bucketOk := true, downloadOk := true, fileExists := true,
    fileSize := 12582912, ffmpegOk := fun _ => true,
    segments := fun _ => ["chunk000.ts", "chunk001.ts"],
    uploadOk := fun _ => true, cleanupOk := true }

/-- Route oracle in which every storage call succeeds. -/
def envAllOk : CompleteEnv :=
  { s3CompleteOk := true, copyOk := true, tenv := tenvAllOk }

/-- Route oracle in which only the CompleteMultipartUpload step fails. -/
def envNoS3 : CompleteEnv :=
  { envAllOk with s3CompleteOk := false }

/-- Transcoder oracle in which ffmpeg fails for every rendition. -/
def tenvFfmpegFail : TranscodeEnv :=
  { tenvAllOk with ffmpegOk := fun _ => false }

/-- Expected durable-effect block of one fully processed rendition: all its
segment uploads in ffmpeg output order, then its per-rendition playlist. -/
def renditionTrace (env : TranscodeEnv) (r : Rendition) : List TEvent :=
  (env.segments r.name).map (TEvent.uploadSegment r.name) ++
    [TEvent.uploadPlaylist r.name]

theorem uploadSegmentLoop_no_master (env : TranscodeEnv) (base r : String)
    (names : List String) (segs : List String) :
    TEvent.uploadMaster names ∉ (uploadSegmentLoop env base r segs).1 := by
  induction segs with
  | nil => simp [uploadSegmentLoop]
  | cons s rest ih =>
    rcases hres : uploadSegmentLoop env base r rest with ⟨evs, ok⟩
    rw [hres] at ih
    simp only [uploadSegmentLoop, hres]
    split <;> simp_all

theorem uploadSegmentLoop_no_cleanup (env : TranscodeEnv) (base r : String)
    (b : Bool) (segs : List String) :
    TEvent.cleanup b ∉ (uploadSegmentLoop env base r segs).1 := by
  induction segs with
  | nil => simp [uploadSegmentLoop]
  | cons s rest ih =>
    rcases hres : uploadSegmentLoop env base r rest with ⟨evs, ok⟩
    rw [hres] at ih
    simp only [uploadSegmentLoop, hres]
    split <;> simp_all

theorem uploadSegmentLoop_ok_trace (env : TranscodeEnv) (base r : String)
    (segs : List String) (hok : (uploadSegmentLoop env base r segs).2 = true) :
    (uploadSegmentLoop env base r segs).1 =
      segs.map (TEvent.uploadSegment r) := by
  induction segs with
  | nil => simp [uploadSegmentLoop]
  | cons s rest ih =>
    rcases hres : uploadSegmentLoop env base r rest with ⟨evs, ok⟩
    rw [hres] at ih
    rw [uploadSegmentLoop, hres] at hok ⊢
    revert hok
    split <;> simp_all

theorem processRendition_no_master (env : TranscodeEnv) (base : String)
    (names : List String) (res : Rendition) :
    TEvent.uploadMaster names ∉ (processRendition env base res).1 := by
  have hseg := uploadSegmentLoop_no_master env base res.name names
    (env.segments res.name)
  rcases hres : uploadSegmentLoop env base res.name (env.segments res.name)
    with ⟨evs, ok⟩
  rw [hres] at hseg
  simp only [processRendition, hres]
  split_ifs <;> simp_all

theorem processRendition_no_cleanup (env : TranscodeEnv) (base : String)
    (b : Bool) (res : Rendition) :
    TEvent.cleanup b ∉ (processRendition env base res).1 := by
  have hseg := uploadSegmentLoop_no_cleanup env base res.name b
    (env.segments res.name)
  rcases hres : uploadSegmentLoop env base res.name (env.segments res.name)
    with ⟨evs, ok⟩
  rw [hres] at hseg
  simp only [processRendition, hres]
  split_ifs <;> simp_all

theorem processRendition_ok_trace (env : TranscodeEnv) (base : String)
    (res : Rendition) (hok : (processRendition env base res).2 = true) :
    (processRendition env base res).1 = renditionTrace env res := by
  have htr := uploadSegmentLoop_ok_trace env base res.name
    (env.segments res.name)
  rcases hres : uploadSegmentLoop env base res.name (env.segments res.name)
    with ⟨evs, ok⟩
  rw [hres] at htr
  simp only [processRendition, hres] at hok ⊢
  split_ifs at hok ⊢ <;> simp_all [renditionTrace]

theorem processRenditions_no_master (env : TranscodeEnv) (base : String)
    (names : List String) (rs : List Rendition) :
    TEvent.uploadMaster names ∉ (processRenditions env base rs).1 := by
  induction rs with
  | nil => simp [processRenditions]
  | cons r rest ih =>
    have hone := processRendition_no_master env base names r
    rcases hr : processRendition env base r with ⟨evs, ok⟩
    rw [hr] at hone
    rcases hrest : processRenditions env base rest with ⟨evs2, nms, ok2⟩
    rw [hrest] at ih
    simp only [processRenditions, hr, hrest]
    split <;> simp_all

theorem processRenditions_no_cleanup (env : TranscodeEnv) (base : String)
    (b : Bool) (rs : List Rendition) :
    TEvent.cleanup b ∉ (processRenditions env base rs).1 := by
  induction rs with
  | nil => simp [processRenditions]
  | cons r rest ih =>
    have hone := processRendition_no_cleanup env base b r
    rcases hr : processRendition env base r with ⟨evs, ok⟩
    rw [hr] at hone
    rcases hrest : processRenditions env base rest with ⟨evs2, nms, ok2⟩
    rw [hrest] at ih
    simp only [processRenditions, hr, hrest]
    split <;> simp_all

theorem processRenditions_ok_trace (env : TranscodeEnv) (base : String)
    (rs : List Rendition)
    (hok : (processRenditions env base rs).2.2 = true) :
    (processRenditions env base rs).1 =
      (rs.map (renditionTrace env)).flatten ∧
    (processRenditions env base rs).2.1 = rs.map (fun r => r.name) := by
  induction rs with
  | nil => simp [processRenditions]
  | cons r rest ih =>
    have hone := processRendition_ok_trace env base r
    rcases hr : processRendition env base r with ⟨evs, ok⟩
    rw [hr] at hone
    rcases hrest : processRenditions env base rest with ⟨evs2, nms, ok2⟩
    rw [hrest] at ih
    simp only [processRenditions, hr, hrest] at hok ⊢
    by_cases hb : ok = true <;> simp_all

theorem uploadSegmentLoop_cleanupOk (env : TranscodeEnv) (b : Bool)
    (base r : String) (segs : List String) :
    uploadSegmentLoop { env with cleanupOk := b } base r segs =
      uploadSegmentLoop env base r segs := by
  induction segs with
  | nil => rfl
  | cons s rest ih => simp only [uploadSegmentLoop, ih]

theorem processRendition_cleanupOk (env : TranscodeEnv) (b : Bool)
    (base : String) (res : Rendition) :
    processRendition { env with cleanupOk := b } base res =
      processRendition env base res := by
  simp only [processRendition, uploadSegmentLoop_cleanupOk]

theorem processRenditions_cleanupOk (env : TranscodeEnv) (b : Bool)
    (base : String) (rs : List Rendition) :
    processRenditions { env with cleanupOk := b } base rs =
      processRenditions env base rs := by
  induction rs with
  | nil => rfl
  | cons r rest ih =>
    simp only [processRenditions, processRendition_cleanupOk, ih]

theorem generateHLSContent_master_trace (env : TranscodeEnv) (videoId : String)
    (videoKey : Option String) (names : List String)
    (hmem : TEvent.uploadMaster names ∈
      (generateHLSContent env videoId videoKey).1) :
    names = resolutions.map (fun r => r.name) ∧
    (generateHLSContent env videoId videoKey).1 =
      (resolutions.map (renditionTrace env)).flatten ++
        [TEvent.uploadMaster names, TEvent.cleanup env.cleanupOk] := by
  have hnm := processRenditions_no_master env ("videos/" ++ videoId ++ "/hls")
    names resolutions
  have hot := processRenditions_ok_trace env ("videos/" ++ videoId ++ "/hls")
    resolutions
  rcases hp : processRenditions env ("videos/" ++ videoId ++ "/hls") resolutions
    with ⟨evs, nms, ok⟩
  rw [hp] at hnm hot
  simp only [generateHLSContent, hp] at hmem ⊢
  split_ifs at hmem ⊢ <;> simp_all
  · rcases hmem with ⟨a, ha, hx⟩ | h
    · exact absurd hx (hnm a ha)
    · exact ⟨h, h.symm⟩
  · obtain ⟨a, ha, hx⟩ := hmem
    exact hnm a ha hx

/-- C5: whenever the transcoder publishes a top-level (master) manifest, the
event trace is exactly: every segment then the playlist of 720p, every
segment then the playlist of 1080p, then the master referencing exactly those
two renditions in configuration order — so each rendition's uploads complete
before the next rendition's begin, the master is the last upload, it
references only fully uploaded renditions, and the configured rendition table
is ordered by ascending bitrate; when the transcode fails no master is ever
in the trace (by this very characterization). -/
theorem C5_theorem (env : TranscodeEnv) (videoId : String)
    (videoKey : Option String) (names : List String)
    (hmem : TEvent.uploadMaster names ∈
      (generateHLSContent env videoId videoKey).1) :
    names = resolutions.map (fun r => r.name) ∧
    (generateHLSContent env videoId videoKey).1 =
      (resolutions.map (renditionTrace env)).flatten ++
        [TEvent.uploadMaster names, TEvent.cleanup env.cleanupOk] ∧
    resolutions.Pairwise (fun a b => a.bitrate ≤ b.bitrate) :=
  ⟨(generateHLSContent_master_trace env videoId videoKey names hmem).1,
   (generateHLSContent_master_trace env videoId videoKey names hmem).2,
   by decide⟩

/-- C5 witness: the all-success transcode of video "v1" publishes its master
last, after both complete rendition blocks. -/
theorem C5_witness :
    TEvent.uploadMaster ["720p", "1080p"] ∈
      (generateHLSContent tenvAllOk "v1" (some "k")).1 ∧
    (generateHLSContent tenvAllOk "v1" (some "k")).1 =
      (resolutions.map (renditionTrace tenvAllOk)).flatten ++
        [TEvent.uploadMaster ["720p", "1080p"],
         TEvent.cleanup tenvAllOk.cleanupOk] :=
  ⟨by decide,
   (C5_theorem tenvAllOk "v1" (some "k") ["720p", "1080p"] (by decide)).2.1⟩

/-- C8 counterexample: the claim says scratch cleanup runs on both success
and failure; but when ffmpeg fails the error propagates before the cleanup
line, so no cleanup attempt occurs at all on the failure path. -/
theorem C8_counterexample :
    (generateHLSContent tenvFfmpegFail "v1" (some "k")).2 =
      .error "HLS generation failed" ∧
    TEvent.cleanup true ∉ (generateHLSContent tenvFfmpegFail "v1" (some "k")).1 ∧
    TEvent.cleanup false ∉ (generateHLSContent tenvFfmpegFail "v1" (some "k")).1 :=
  ⟨rfl, by decide, by decide⟩

/-- C8 amended: the scratch-directory cleanup runs only on the success path
(after the master upload); when it runs, its own failure is swallowed — the
transcode result is identical whether the removal succeeds or fails, so a
cleanup failure can never mask a successful transcode. -/
theorem C8_theorem (env : TranscodeEnv) (videoId : String)
    (videoKey : Option String) :
    (generateHLSContent { env with cleanupOk := false } videoId videoKey).2 =
      (generateHLSContent { env with cleanupOk := true } videoId videoKey).2 ∧
    (∀ dir, (generateHLSContent env videoId videoKey).2 = .ok dir →
      TEvent.cleanup env.cleanupOk ∈
        (generateHLSContent env videoId videoKey).1) := by
  constructor
  · rcases hp : processRenditions env ("videos/" ++ videoId ++ "/hls")
      resolutions with ⟨evs, nms, ok⟩
    simp only [generateHLSContent, processRenditions_cleanupOk, hp]
    split_ifs <;> rfl
  · intro dir hok
    rcases hp : processRenditions env ("videos/" ++ videoId ++ "/hls")
      resolutions with ⟨evs, nms, ok⟩
    simp only [generateHLSContent, hp] at hok ⊢
    split_ifs at hok ⊢ <;> simp_all

/-- C8 witness: in the all-success environment the transcode returns its HLS
directory and the trace records the cleanup attempt. -/
theorem C8_witness :
    TEvent.cleanup true ∈ (generateHLSContent tenvAllOk "v1" (some "k")).1 :=
  (C8_theorem tenvAllOk "v1" (some "k")).2 "videos/v1/hls" rfl

/-- C3 counterexample: the claim says re-acknowledging `partIndex` 1 with tag
"b" overwrites the stored tag "a" and never duplicates an entry; the code's
push update instead appends, leaving both `{a, 1}` and `{b, 1}` in
`chunkParts` — two entries for part index 1, the prior tag still present. -/
theorem C3_counterexample :
    updateMultipartUploadParts (some "u1")
        [{ baseVideo with chunkParts := [⟨"a", 1⟩] }] "v1" "up1" ⟨"b", 1⟩ =
      .ok [{ baseVideo with chunkParts := [⟨"a", 1⟩, ⟨"b", 1⟩] }] ∧
    List.countP (fun p => p.PartNumber == 1)
        ([⟨"a", 1⟩, ⟨"b", 1⟩] : List ChunkPart) = 2 :=
  ⟨rfl, by decide⟩

/-- C3 amended: re-acknowledging a part (same or different index) appends the
new `{ETag, PartNumber}` record to the end of `chunkParts` without replacing
anything, so the number of entries for that part index grows by one on every
acknowledgment (duplicates accumulate; no last-write-wins overwrite). -/
theorem C3_theorem (video : VideoDoc) (userId : String) (p : ChunkPart)
    (hmatch : matchesUpload video.id video.uploadId userId video = true) :
    updateMultipartUploadParts (some userId) [video] video.id video.uploadId p =
      .ok [{ video with chunkParts := video.chunkParts ++ [p] }] ∧
    List.countP (fun q => q.PartNumber == p.PartNumber)
        (video.chunkParts ++ [p]) =
      List.countP (fun q => q.PartNumber == p.PartNumber) video.chunkParts + 1 := by
  constructor
  · simp [updateMultipartUploadParts, List.find?, hmatch, findByIdAndUpdate]
  · simp [List.countP_append]

/-- C3 witness: concrete instance of the amended theorem at a session holding
tag "a" for part 1, re-acknowledged with tag "b". -/
theorem C3_witness :
    updateMultipartUploadParts (some "u1")
        [{ baseVideo with chunkParts := [⟨"a", 1⟩] }] "v1" "up1" ⟨"b", 1⟩ =
      .ok [{ { baseVideo with chunkParts := [⟨"a", 1⟩] } with
              chunkParts := [⟨"a", 1⟩] ++ [⟨"b", 1⟩] }] :=
  (C3_theorem { baseVideo with chunkParts := [⟨"a", 1⟩] } "u1" ⟨"b", 1⟩
    (by decide)).1

/-- C6 counterexample: the claim says acknowledgment fails with NotFound when
no session matches with `state == Uploading`, so parts of a `processing`
session never change; but the query has no status filter, and acknowledging a
part of a `processing` session succeeds and grows its `chunkParts`. -/
theorem C6_counterexample :
    updateMultipartUploadParts (some "u1")
        [{ baseVideo with status := .processing }] "v1" "up1" ⟨"x", 1⟩ =
      .ok [{ baseVideo with status := .processing, chunkParts := [⟨"x", 1⟩] }] :=
  rfl

/-- C6 amended: the lookup filter is exactly `{_id, uploadId, uploadedById}`
with no state condition: the call fails with "Video not found or
unauthorized" precisely when no document matches those three fields, and for
a matching document in ANY state (uploading, processing, ready or error) the
part is appended, so the acknowledged-parts list of a non-Uploading session
can change. -/
theorem C6_theorem (video : VideoDoc) (userId : String) (p : ChunkPart)
    (db : List VideoDoc)
    (howner : video.uploadedById = userId) :
    updateMultipartUploadParts (some userId) [video] video.id video.uploadId p =
      .ok [{ video with chunkParts := video.chunkParts ++ [p] }] ∧
    (db.find? (matchesUpload video.id video.uploadId userId) = none →
      updateMultipartUploadParts (some userId) db video.id video.uploadId p =
        .error "Video not found or unauthorized") := by
  constructor
  · simp [updateMultipartUploadParts, List.find?, matchesUpload, howner,
      findByIdAndUpdate]
  · intro hnone
    simp [updateMultipartUploadParts, hnone]

/-- C6 witness: acknowledging a part of a session that is already `ready`
succeeds and appends (instance of the amended theorem at `readyVideo`). -/
theorem C6_witness :
    updateMultipartUploadParts (some "u1") [readyVideo] readyVideo.id
        readyVideo.uploadId ⟨"late", 4⟩ =
      .ok [{ readyVideo with chunkParts := readyVideo.chunkParts ++ [⟨"late", 4⟩] }] :=
  (C6_theorem readyVideo "u1" ⟨"late", 4⟩ [] rfl).1

/-- C7: for a ready video served over HLS, a viewer whose membership lookup
is not paid always receives `allowedQuality = "720p"` — the free-tier
ceiling — no matter what the manifest or the database contain. -/
theorem C7_theorem (userId : String) (db : List VideoDoc) (videoId : String)
    (m : MembershipStatus) (signedUrl : String → String) (video : VideoDoc)
    (hlsPath : String)
    (hfind : db.find? (fun v => v.id == videoId && decide (v.status = .ready)) =
      some video)
    (hhls : video.hlsKey = some hlsPath)
    (hfree : m.isPaidMember = false) :
    (streamRoute (some userId) db videoId m signedUrl).1.allowedQuality =
      some freeTierCeiling := by
  simp [streamRoute, hfind, hhls, hfree, freeTierCeiling]

/-- C7 witness: a free viewer of the concrete ready HLS video gets exactly
the 720p ceiling. -/
theorem C7_witness :
    (streamRoute (some "viewer") [readyVideo] "v1" ⟨false, "free", none⟩ id).1.allowedQuality =
      some freeTierCeiling :=
  C7_theorem "viewer" [readyVideo] "v1" ⟨false, "free", none⟩ id readyVideo
    "videos/v1/hls" (by decide) (by decide) rfl

/-- C9: the tier lookup fails closed — a fetch error, or a stored expiry
strictly in the past, both yield `{isPaidMember := false, tier := "free"}`,
so neither an error nor an expired subscription grants paid-tier quality. -/
theorem C9_theorem (fetch : Except String (Option MembershipMeta)) (now : Int) :
    ((∃ e, fetch = .error e) →
      getUserMembership fetch now = ⟨false, "free", none⟩) ∧
    (∀ meta t, fetch = .ok (some meta) → meta.expiresAt = some t → now > t →
      getUserMembership fetch now = ⟨false, "free", none⟩) := by
  constructor
  · rintro ⟨e, rfl⟩
    rfl
  · rintro meta t rfl ht hgt
    simp [getUserMembership, ht, hgt]

/-- C9 witness: a thrown fetch and an expired premium membership both resolve
to the free tier. -/
theorem C9_witness :
    getUserMembership (.error "network failure") 0 = ⟨false, "free", none⟩ ∧
    getUserMembership (.ok (some ⟨true, some "premium", some 100⟩)) 200 =
      ⟨false, "free", none⟩ :=
  ⟨(C9_theorem (.error "network failure") 0).1 ⟨"network failure", rfl⟩,
   (C9_theorem (.ok (some ⟨true, some "premium", some 100⟩)) 200).2
     ⟨true, some "premium", some 100⟩ 100 rfl rfl (by norm_num)⟩

/-- C1 counterexample: the claim says a failed storage-side multipart
completion resolves the session to Errored and does not proceed to
relocation/transcode; but in a run where only CompleteMultipartUpload fails
(`envNoS3`), the trace still contains the successful CopyObject relocation
and the transcoder invocation — the route proceeded past the storage
failure. -/
theorem C1_counterexample :
    REvent.s3Copy true ∈
      (completeRoute envNoS3 7 (some "u1") "up1" "uploads/v1/movie.mp4" "v1"
        (some [⟨"tagA", 1⟩]) [baseVideo]).2.2 ∧
    REvent.transcodeCall "videos/v1/movie.mp4" none ∈
      (completeRoute envNoS3 7 (some "u1") "up1" "uploads/v1/movie.mp4" "v1"
        (some [⟨"tagA", 1⟩]) [baseVideo]).2.2 :=
  ⟨by decide, by decide⟩

/-- C1 amended: a failure of the storage-side multipart completion step is
swallowed (the catch logs and continues) and has no effect whatsoever on the
outcome: for every input, the response and the resulting video collection are
identical whether that storage call failed or succeeded; the session is
marked error only by a subsequent relocation/transcode failure. -/
theorem C1_theorem (env : CompleteEnv) (now : Nat) (auth : Option String)
    (uploadId key videoId : String) (parts? : Option (List ChunkPart))
    (db : List VideoDoc) :
    (completeRoute { env with s3CompleteOk := false } now auth uploadId key
        videoId parts? db).1 =
      (completeRoute { env with s3CompleteOk := true } now auth uploadId key
        videoId parts? db).1 ∧
    (completeRoute { env with s3CompleteOk := false } now auth uploadId key
        videoId parts? db).2.1 =
      (completeRoute { env with s3CompleteOk := true } now auth uploadId key
        videoId parts? db).2.1 := by
  cases auth with
  | none => exact ⟨rfl, rfl⟩
  | some userId =>
    cases parts? with
    | none => exact ⟨rfl, rfl⟩
    | some parts =>
      simp only [completeRoute]
      split_ifs <;> try exact ⟨rfl, rfl⟩
      all_goals
        rcases hf : List.find? (matchesUpload videoId uploadId userId) db
          with _ | video
      all_goals try simp only [hf]
      all_goals try exact ⟨rfl, rfl⟩
      all_goals try (
        rcases hg : (generateHLSContent env.tenv
          ("videos/" ++ video.id ++ "/" ++ video.fileName) none).2 with e | hls <;>
        simp only [hg])
      all_goals exact ⟨trivial, trivial⟩

/-- C2 counterexample: the claim says a finalize that observes a
Processing/Ready session is rejected with ConflictError without re-running
the assembly; but finalizing a session already `ready` re-runs the storage
assembly (the CompleteMultipartUpload event is in the trace), answers 500 —
not any conflict rejection — and clobbers the ready status to error. -/
theorem C2_counterexample :
    (completeRoute envAllOk 7 (some "u1") "up1" "k1" "v1"
        (some [⟨"tagA", 1⟩]) [readyVideo]).1 =
      ⟨500, false, some "Failed to process video after upload"⟩ ∧
    REvent.s3Complete true [⟨"tagA", 1⟩] ∈
      (completeRoute envAllOk 7 (some "u1") "up1" "k1" "v1"
        (some [⟨"tagA", 1⟩]) [readyVideo]).2.2 ∧
    ((completeRoute envAllOk 7 (some "u1") "up1" "k1" "v1"
        (some [⟨"tagA", 1⟩]) [readyVideo]).2.1.map fun v => v.status) =
      [VideoStatus.error] :=
  ⟨rfl, by decide, rfl⟩

/-- C2 amended: finalize performs no session-state validation and knows no
ConflictError: whenever a record matches `{_id, uploadId, uploadedById}` —
whatever its status, including processing and ready — the route
unconditionally proceeds and re-attempts the storage assembly (the
CompleteMultipartUpload event always occurs). -/
theorem C2_theorem (env : CompleteEnv) (now : Nat)
    (userId uploadId key videoId : String) (parts : List ChunkPart)
    (db : List VideoDoc) (video : VideoDoc)
    (hids : ¬(uploadId = "" ∨ key = "" ∨ videoId = ""))
    (hne : parts ≠ [])
    (hvalid : (parts.all fun p => p.ETag != "" && p.PartNumber != 0) = true)
    (hfind : db.find? (matchesUpload videoId uploadId userId) = some video) :
    REvent.s3Complete env.s3CompleteOk (sortParts parts) ∈
      (completeRoute env now (some userId) uploadId key videoId (some parts)
        db).2.2 := by
  rcases hg : (generateHLSContent env.tenv
      ("videos/" ++ video.id ++ "/" ++ video.fileName) none).2 with e | hls
  all_goals simp only [completeRoute, hfind]
  all_goals split_ifs <;> simp_all

/-- C2 witness: the amended theorem at a session that is already `ready` —
the second finalize still re-runs the storage assembly. -/
theorem C2_witness :
    REvent.s3Complete true [⟨"tagA", 1⟩] ∈
      (completeRoute envAllOk 7 (some "u1") "up1" "k2" "v1"
        (some [⟨"tagA", 1⟩]) [readyVideo]).2.2 :=
  C2_theorem envAllOk 7 "u1" "up1" "k2" "v1" [⟨"tagA", 1⟩] [readyVideo]
    readyVideo (by decide) (by decide) (by decide) (by decide)

/-- C4: the end-to-end scenario — session for a 12 MB file, parts
acknowledged in order 2, 1, 3, finalize with all three tagged parts and
every external operation succeeding — does NOT reach `ready`: the route
invokes the transcoder as `generateHLSContent(finalKey)` with a single
argument (trace records `transcodeCall finalKey none`) although its
signature requires `(videoId, videoKey)`, so the transcoder's argument
validation throws and the session is marked `error` with a 500 response;
the same transcoder invoked with both arguments on the same finalized
source succeeds, showing the failure lies solely at the call site. -/
theorem C4_theorem :
    updateMultipartUploadParts (some "u1") [baseVideo] "v1" "up1" ⟨"tagB", 2⟩ =
      .ok [{ baseVideo with chunkParts := [⟨"tagB", 2⟩] }] ∧
    updateMultipartUploadParts (some "u1")
        [{ baseVideo with chunkParts := [⟨"tagB", 2⟩] }] "v1" "up1"
        ⟨"tagA", 1⟩ =
      .ok [{ baseVideo with chunkParts := [⟨"tagB", 2⟩, ⟨"tagA", 1⟩] }] ∧
    updateMultipartUploadParts (some "u1")
        [{ baseVideo with chunkParts := [⟨"tagB", 2⟩, ⟨"tagA", 1⟩] }] "v1"
        "up1" ⟨"tagC", 3⟩ =
      .ok [{ baseVideo with
              chunkParts := [⟨"tagB", 2⟩, ⟨"tagA", 1⟩, ⟨"tagC", 3⟩] }] ∧
    (completeRoute envAllOk 7 (some "u1") "up1" "uploads/v1/movie.mp4" "v1"
        (some [⟨"tagA", 1⟩, ⟨"tagB", 2⟩, ⟨"tagC", 3⟩])
        [{ baseVideo with
            chunkParts := [⟨"tagB", 2⟩, ⟨"tagA", 1⟩, ⟨"tagC", 3⟩] }]).1 =
      ⟨500, false, some "Failed to process video after upload"⟩ ∧
    ((completeRoute envAllOk 7 (some "u1") "up1" "uploads/v1/movie.mp4" "v1"
        (some [⟨"tagA", 1⟩, ⟨"tagB", 2⟩, ⟨"tagC", 3⟩])
        [{ baseVideo with
            chunkParts := [⟨"tagB", 2⟩, ⟨"tagA", 1⟩, ⟨"tagC", 3⟩] }]).2.1.map
      fun v => v.status) = [VideoStatus.error] ∧
    REvent.transcodeCall "videos/v1/movie.mp4" none ∈
      (completeRoute envAllOk 7 (some "u1") "up1" "uploads/v1/movie.mp4" "v1"
        (some [⟨"tagA", 1⟩, ⟨"tagB", 2⟩, ⟨"tagC", 3⟩])
        [{ baseVideo with
            chunkParts := [⟨"tagB", 2⟩, ⟨"tagA", 1⟩, ⟨"tagC", 3⟩] }]).2.2 ∧
    (generateHLSContent tenvAllOk "v1" (some "videos/v1/movie.mp4")).2 =
      .ok "videos/v1/hls" :=
  ⟨rfl, rfl, rfl, rfl, rfl, by decide, rfl⟩

/-- C10: updateVideo touches only `title`, `description` and the Mongoose
`updatedAt` timestamp — status, keys, upload bookkeeping, view count and
creation time are all preserved — and an empty-string title is ignored while
an empty-string description is applied. -/
theorem C10_theorem (v : VideoDoc) (t d : Option String) (now : Nat) :
    ((updateVideo v t d now).id = v.id ∧
     (updateVideo v t d now).status = v.status ∧
     (updateVideo v t d now).s3Key = v.s3Key ∧
     (updateVideo v t d now).uploadId = v.uploadId ∧
     (updateVideo v t d now).chunkParts = v.chunkParts ∧
     (updateVideo v t d now).viewCount = v.viewCount ∧
     (updateVideo v t d now).createdAt = v.createdAt ∧
     (updateVideo v t d now).videoKey = v.videoKey ∧
     (updateVideo v t d now).hlsKey = v.hlsKey ∧
     (updateVideo v t d now).processingError = v.processingError ∧
     (updateVideo v t d now).uploadCompletedAt = v.uploadCompletedAt ∧
     (updateVideo v t d now).fileName = v.fileName ∧
     (updateVideo v t d now).fileSize = v.fileSize ∧
     (updateVideo v t d now).workspaceId = v.workspaceId ∧
     (updateVideo v t d now).uploadedById = v.uploadedById ∧
     (updateVideo v t d now).updatedAt = now) ∧
    (updateVideo v (some "") d now).title = v.title ∧
    (updateVideo v t (some "") now).description = some "" := by
  rcases t with _ | t <;> rcases d with _ | d <;>
    simp [updateVideo] <;> split <;> simp

end VCP
